import Mathlib

/-!
Verification of the `messager` components of the baudotrss repository.

Shallow embedding of:
* `src/messager/dummyteletype.py` — the dummy Baudot teletype (read/write paths,
  shift-state handling, output line buffer),
* `src/messager/twiliofeed.py` — the SMS feed adapter (poll cycle, cursor,
  acknowledgement drain),
* `src/messager/nwsweatherreport.py` — the NWS weather XML payload parser.

The external `baudot` module (the USTTY code table) is not part of the source
tree; it is modelled from the spec as an abstract codec interface (see
`BaudotCodec`).  The missing `feedmanager` base class is likewise modelled at
its interface (`isfeedidle` becomes a boolean input of a poll cycle).
-/

namespace Baudotrss

/-! ## Dummy teletype (src/messager/dummyteletype.py) -/

/-- ASCII ESC character (source: `ESC = 0x1b`). -/
def ESC : Char := Char.ofNat 0x1b

/-- ASCII control-C (source: `CTLC = 0x03`). -/
def CTLC : Char := Char.ofNat 0x03

/-- ASCII backspace `'\b'`. -/
def BS : Char := Char.ofNat 0x08

/-- ASCII delete, `chr(0x7f)` in the source. -/
def DEL : Char := Char.ofNat 0x7f

/-- Source line 25: `BLANKKEY = 0x00`.  (The value is the all-bits-zero Baudot
blank; the source comment calls it "the all ones char", which its value
contradicts.) -/
def BLANKKEY : Nat := 0x00

/-- Modelled from the spec: the character codec of the external `baudot`
module, which is not under src/ (src only calls it).  Spec 4.1: a
bidirectional mapping between a display character and a pair
(code-point, required shift); `chToBaudot` returns `(None, None)` components
when a character or shift is absent, `chToASCII` decodes a code-point given
the current shift state.  `LTRS`, `FIGS` and `CR` are the reserved shift and
line-end code-points (`baudot.Baudot.LTRS` etc. in the source). -/
structure BaudotCodec where
  LTRS : Nat
  FIGS : Nat
  CR : Nat
  toBaudot : Char → Option Nat × Option Nat
  toASCII : Nat → Option Nat → Option Char

/-- State of a `Dummyteletype` object: the two shift-state registers, the
pending output line, and the lines already flushed (logged). -/
structure TTYState where
  inshift : Option Nat
  outshift : Option Nat
  outline : List Char
  printed : List (List Char)
deriving DecidableEq, Repr

/-- `Dummyteletype.flushOutput` (lines 98-102): log and clear the output line
if it is nonempty. -/
def flushOutput (st : TTYState) : TTYState :=
  if st.outline.length > 0 then
    { st with printed := st.printed ++ [st.outline], outline := [] }
  else st

/-- One iteration of the loop in `Dummyteletype.write` (lines 108-122):
FIGS and LTRS update the output shift; other code-points are decoded with the
current output shift, line terminators flush, printable characters append to
the output line, undecodable code-points are dropped. -/
def writeByte (c : BaudotCodec) (st : TTYState) (bb : Nat) : TTYState :=
  if bb = c.FIGS then { st with outshift := some bb }
  else if bb = c.LTRS then { st with outshift := some bb }
  else
    match c.toASCII bb st.outshift with
    | none => st
    | some ch =>
      if ch = '\n' ∨ ch = '\r' then flushOutput st
      else { st with outline := st.outline ++ [ch] }

/-- The loop of `Dummyteletype.write` over all bytes of the argument. -/
def writeRun (c : BaudotCodec) (s : List Nat) (st : TTYState) : TTYState :=
  s.foldl (writeByte c) st

/-- `Dummyteletype.write` (lines 104-123): the byte loop followed by
`self.inshift = self.outshift` (line 123).  The 0.5 s flush timer
(lines 124-130) is concurrency and is outside this model. -/
def write (c : BaudotCodec) (s : List Nat) (st : TTYState) : TTYState :=
  let t := writeRun c s st
  { t with inshift := t.outshift }

/-- The special-key dispatch of `Dummyteletype.read` (lines 157-163):
ESC simulates a BREAK as `(0, None)`, backspace and delete become
`(BLANKKEY, None)`, everything else goes through `chToBaudot`. -/
def readKey (c : BaudotCodec) (inbyte : Char) : Option Nat × Option Nat :=
  if inbyte = ESC then (some 0, none)
  else if inbyte = BS ∨ inbyte = DEL then (some BLANKKEY, none)
  else c.toBaudot inbyte

/-- Emission for one input character in `Dummyteletype.read` (lines 164-170),
given the current input shift state: a shift code-point is prepended exactly
when the key has a shift that differs from the input shift state (which is
then updated), and the character code-point follows unless it is `None`
(unrepresentable characters are logged and skipped). -/
def readStep (c : BaudotCodec) (st : Option Nat) (inbyte : Char) :
    List Nat × Option Nat :=
  let p := readKey c inbyte
  let sp : List Nat × Option Nat :=
    match p.2 with
    | some sh => if some sh ≠ st then ([sh], some sh) else ([], st)
    | none => ([], st)
  match p.1 with
  | none => sp
  | some bb => (sp.1 ++ [bb], sp.2)

/-- The character loop of `Dummyteletype.read` (lines 147-170) over the input
characters, threading the input shift state.  Non-ASCII input is replaced by
`'?'` (`encode("ASCII","replace")`, line 146), control-C exits the process
(line 153, modelled as `none`), newline becomes carriage return (lines
154-155). -/
def readLoop (c : BaudotCodec) :
    List Char → Option Nat → Option (List Nat × Option Nat)
  | [], st => some ([], st)
  | ch :: rest, st =>
    let inbyte := if ch.toNat ≥ 128 then '?' else ch
    if inbyte = CTLC then none
    else
      let inbyte2 := if inbyte = '\n' then '\r' else inbyte
      let s := readStep c st inbyte2
      match readLoop c rest s.2 with
      | none => none
      | some (tl, stf) => some (s.1 ++ tl, stf)

/-- `Dummyteletype.read` (lines 133-173): assemble the code-point sequence for
the input, then append an ending CR unless the assembled sequence is exactly
one code-point long (lines 171-172).  The result pairs the returned bytes with
the final input shift state. -/
def read (c : BaudotCodec) (input : List Char) (st : Option Nat) :
    Option (List Nat × Option Nat) :=
  match readLoop c input st with
  | none => none
  | some (a, st2) => some (if a.length ≠ 1 then a ++ [c.CR] else a, st2)

/-- A character is round-trippable for a codec when it is plain ASCII text
(none of the keys the read path treats specially, and not a line terminator,
which the write path turns into a flush instead of line output) and the codec
maps it to a non-shift code-point that decodes back to it under the shift the
encoder establishes — the "bidirectional mapping" of spec 4.1. -/
def roundtrippable (c : BaudotCodec) (ch : Char) : Prop :=
  ch.toNat < 128 ∧ ch ≠ CTLC ∧ ch ≠ ESC ∧ ch ≠ BS ∧ ch ≠ DEL ∧
  ch ≠ '\n' ∧ ch ≠ '\r' ∧
  ∃ bb sho, c.toBaudot ch = (some bb, sho) ∧ bb ≠ c.FIGS ∧ bb ≠ c.LTRS ∧
    ((∃ sh, sho = some sh ∧ (sh = c.FIGS ∨ sh = c.LTRS) ∧
        c.toASCII bb (some sh) = some ch) ∨
     (sho = none ∧ ∀ s, c.toASCII bb s = some ch))

/-- A small concrete codec instance satisfying the spec 4.1 contract, used to
instantiate the general theorems on concrete inputs ('A' is a letters-case
character, '1' a figures-case character, space and CR are caseless). -/
def WC : BaudotCodec where
  LTRS := 31
  FIGS := 27
  CR := 8
  toBaudot := fun ch =>
    if ch = 'A' then (some 3, some 31)
    else if ch = '1' then (some 3, some 27)
    else if ch = ' ' then (some 4, none)
    else if ch = '\r' then (some 8, none)
    else (none, none)
  toASCII := fun bb sh =>
    if bb = 3 then
      (if sh = some 31 then some 'A'
       else if sh = some 27 then some '1' else none)
    else if bb = 4 then some ' '
    else if bb = 8 then some '\r'
    else none

/-! ## Twilio SMS feed adapter (src/messager/twiliofeed.py) -/

/-- An item of the done queue; only its source-assigned serial number is used
by the modelled operations (`item.serial`, lines 131, 366). -/
structure FeedItem where
  serial : Int
deriving DecidableEq, Repr

/-- Result of one `Twiliofeed.markitemsdone` call: whether the call returned
`True` (queue fully drained), the done queue afterwards, and the items for
which a "printed" notification reached the server, in send order. -/
structure DrainResult where
  drained : Bool
  queue : List FeedItem
  sent : List FeedItem
deriving DecidableEq, Repr

/-- `Twiliofeed.markitemsdone` (lines 359-375): pop items off the done queue
and send a "printed" command for each; `Queue.Empty` ends the loop with
`True`; an `IOError` on a send logs, puts the failing item back on the queue
(`Queue.put` appends at the tail) and returns `False`.  Whether the network
send for an item succeeds is an oracle `net` (the `doservercmd` call does
network I/O). -/
def markitemsdone (net : FeedItem → Bool) : List FeedItem → DrainResult
  | [] => ⟨true, [], []⟩
  | item :: rest =>
    if net item then
      let r := markitemsdone net rest
      ⟨r.drained, r.queue, item :: r.sent⟩
    else ⟨false, rest ++ [item], []⟩

/-- A command sent to the SMS server by `doservercmd` during a poll cycle:
either "printed serial serial" (acknowledgement) or "getnext serial". -/
inductive SrvCmd where
  | printed (serial : Int)
  | getnext (serial : Int)
deriving DecidableEq, Repr

/-- One `<message>` element of a server reply as seen by
`Twiliofeed.handlereply` (lines 273-285): either its fields parse and contain
a serial number, or processing it raises (a missing serial raises
`EnvironmentError`, line 282; a tag with no string raises `AttributeError`,
line 277). -/
inductive MsgEntry where
  | good (serial : Int)
  | bad
deriving DecidableEq, Repr

/-- The message loop of `Twiliofeed.handlereply`, accumulating
`newserial = max(newserial, serial)` (line 284); the `except` handler
(lines 287-294) catches the first failing entry, emits an error item and
returns the accumulated `newserial`. -/
def handlereplySerial : List MsgEntry → Int → Int
  | [], ns => ns
  | .good s :: rest, ns => handlereplySerial rest (max ns s)
  | .bad :: _, ns => ns

/-- `Twiliofeed.handlereply` (lines 264-296): returns the highest serial
number seen, starting from `-1`, stopping at the first malformed message
(whose error item does not carry a serial). -/
def handlereply (entries : List MsgEntry) : Int := handlereplySerial entries (-1)

/-- The `while True` polling loop of `Twiliofeed.fetchitems` (lines 244-253):
send `getnext (lastserial + 1)`, handle the reply, and advance `lastserial`
exactly when the reply yielded a serial that is truthy (nonzero) and greater
than `lastserial`; otherwise break.  The environment supplies the successive
server replies; when they are exhausted the pending request fails with
`IOError`, which the handler at line 258 turns into the end of the cycle.
Returns the final `lastserial` and the commands sent. -/
def fetchLoop : List (List MsgEntry) → Int → Int × List SrvCmd
  | [], ls => (ls, [.getnext (ls + 1)])
  | r :: rest, ls =>
    let ns := handlereply r
    if ns ≠ 0 ∧ ns > ls then
      let p := fetchLoop rest ns
      (p.1, .getnext (ls + 1) :: p.2)
    else (ls, [.getnext (ls + 1)])

/-- The adapter state a poll cycle reads and writes: the feed cursor
`lastserial` and the done queue. -/
structure FeedState where
  lastserial : Int
  donequeue : List FeedItem
deriving DecidableEq, Repr

/-- `Twiliofeed.fetchitems` (lines 230-259): one poll cycle.  First
`markitemsdone`; if it reports incomplete, return at once (line 235).  Then,
if the feed is idle, reset `lastserial` to `-1` (lines 242-243) and run the
polling loop.  `isfeedidle` comes from the `feedmanager` base class, which is
not under src/; modelled from the spec (4.3: `isIdle()` is true when the most
recent poll cycle produced zero new items) as the boolean input `idle`.
Returns the new state and the transcript of server commands sent. -/
def fetchitems (net : FeedItem → Bool) (idle : Bool)
    (replies : List (List MsgEntry)) (st : FeedState) :
    FeedState × List SrvCmd :=
  let d := markitemsdone net st.donequeue
  let ackcmds := d.sent.map (fun i => SrvCmd.printed i.serial)
  if d.drained = false then ({ st with donequeue := d.queue }, ackcmds)
  else
    let ls0 : Int := if idle then -1 else st.lastserial
    let p := fetchLoop replies ls0
    ({ lastserial := p.1, donequeue := d.queue }, ackcmds ++ p.2)

/-- A concrete acknowledgement-network oracle for instantiating the drain
theorems on concrete inputs: the send fails exactly for serial 5. -/
def net5 : FeedItem → Bool := fun i => decide (i.serial ≠ 5)

/-- A concrete done queue for instantiating the drain theorems. -/
def dq5 : List FeedItem := [⟨1⟩, ⟨5⟩, ⟨7⟩]

/-! ## NWS weather report parser (src/messager/nwsweatherreport.py) -/

/-- Python exceptions that the modelled code can raise.  `nwsxml.parse`
(line 312) catches `EnvironmentError`, `RuntimeError` and
`xml.etree.ElementTree.ParseError`; of these only `RuntimeError` can arise in
the modelled body (the tree is already parsed when `parse` receives it).
`ValueError` (from `datetime.strptime`), `NameError` (from reading the
never-assigned local `offset` at line 89), `AttributeError` (from calling
`.strip()` on `None`, line 280) and `TypeError` (from adding `None` to a
string, line 217) are not in the catch list. -/
inductive PyErr where
  | runtimeError (msg : String)
  | valueError
  | nameError
  | attributeError
  | typeError
deriving DecidableEq, Repr

/-- Python `str.strip()`: remove leading and trailing whitespace.  (Defined
structurally so that concrete evaluations reduce.) -/
def pyStrip (s : String) : String :=
  ⟨((s.data.dropWhile Char.isWhitespace).reverse.dropWhile
      Char.isWhitespace).reverse⟩

/-- An `xml.etree.ElementTree` element: tag, attributes, text, children. -/
inductive XTree where
  | node (tag : String) (attrib : List (String × String))
      (text : Option String) (children : List XTree)

/-- The tag of an element. -/
def XTree.tag : XTree → String
  | .node t _ _ _ => t

/-- The attribute dictionary of an element. -/
def XTree.attrib : XTree → List (String × String)
  | .node _ a _ _ => a

/-- The text of an element (`None` when absent). -/
def XTree.text : XTree → Option String
  | .node _ _ tx _ => tx

/-- The direct children of an element. -/
def XTree.children : XTree → List XTree
  | .node _ _ _ c => c

/-- `element.attrib.get(key)`: first matching attribute, `None` if absent. -/
def attribGet (t : XTree) (key : String) : Option String :=
  (t.attrib.find? (fun p => p.1 == key)).map (fun p => p.2)

/-- `element.find(key)`: the first direct child with the given tag, or
`None`. -/
def XTree.findTag (t : XTree) (key : String) : Option XTree :=
  t.children.find? (fun ch => ch.tag == key)

mutual

/-- `element.iter(key)`: all elements with the given tag, in document order,
the element itself included. -/
def iterTag (key : String) : XTree → List XTree
  | .node tg a tx cs =>
    (if tg = key then [XTree.node tg a tx cs] else []) ++ iterTagList key cs

/-- `iterTag` over a list of sibling subtrees. -/
def iterTagList (key : String) : List XTree → List XTree
  | [] => []
  | t :: ts => iterTag key t ++ iterTagList key ts

end

/-- `nwsxml._find` (lines 160-173): follow a tuple of tags downward, raising
`RuntimeError` when a tag is not found.  The source asserts the key tuple is
nonempty; the `[]` case below is never invoked. -/
def nwsFindPath : XTree → List String → Except PyErr XTree
  | tree, [] => .ok tree
  | tree, key :: restKeys =>
    match tree.findTag key with
    | none =>
      .error (.runtimeError
        ("NWS weather report XML format unexpected. Did not find \"" ++ key ++
         "\" inside XML tag \"" ++ tree.tag ++ "\""))
    | some item =>
      if restKeys.isEmpty then .ok item else nwsFindPath item restKeys

/-- A Python `datetime` value as far as the claims need it: the parsed
calendar fields, whether the object is timezone-aware, and the timezone
offset (in minutes) that `parseisotime` subtracted from it.  The calendar
arithmetic of `datetime.timedelta` subtraction is kept symbolic (recorded as
the offset) because no claim inspects datetime values, only the exception
behaviour of the parser. -/
structure PyDateTime where
  year : Nat
  month : Nat
  day : Nat
  hour : Nat
  minute : Nat
  second : Nat
  tzAware : Bool := false
  appliedOffsetMinutes : Int := 0
deriving DecidableEq, Repr

/-- `datetime.datetime.strptime(s, "%Y-%m-%dT%H:%M:%S")` modelled at its
interface: the 19-character fixed shape with digit and range validation;
anything else raises `ValueError`.  (Python also validates days against the
month-specific calendar; the claims only use valid dates.) -/
def strptime19 : List Char → Option PyDateTime
  | [y1, y2, y3, y4, '-', m1, m2, '-', d1, d2, 'T',
     h1, h2, ':', n1, n2, ':', s1, s2] =>
    if ([y1, y2, y3, y4, m1, m2, d1, d2, h1, h2, n1, n2, s1, s2].all
          Char.isDigit) then
      let v : Char → Char → Nat := fun a b => (a.toNat - 48) * 10 + (b.toNat - 48)
      let year := v y1 y2 * 100 + v y3 y4
      let month := v m1 m2
      let day := v d1 d2
      let hour := v h1 h2
      let minute := v n1 n2
      let second := v s1 s2
      if 1 ≤ month ∧ month ≤ 12 ∧ 1 ≤ day ∧ day ≤ 31 ∧ hour ≤ 23 ∧
         minute ≤ 59 ∧ second ≤ 59 then
        some { year := year, month := month, day := day, hour := hour,
               minute := minute, second := second }
      else none
    else none
  | _ => none

/-- `parseisotime` (lines 77-104): strip, split into a 19-character datetime
part and an offset part; `strptime` the datetime part (`ValueError` escapes if
it fails); if there is an offset part, the branch for `"Z"` executes
`offset == 0` — a comparison that reads the never-assigned local `offset` and
therefore raises `NameError` (line 89) — while `re.match` (a prefix match) on
`sign dd : dd` computes the signed offset and failure to match raises
`RuntimeError`; the offset is applied and the result made timezone-aware. -/
def parseisotime (s : String) : Except PyErr PyDateTime :=
  let s2 := pyStrip s
  let datetimepart := s2.data.take 19
  let offsetpart := s2.data.drop 19
  match strptime19 datetimepart with
  | none => .error .valueError
  | some dt =>
    if offsetpart.length > 0 then
      if offsetpart.map Char.toUpper = ['Z'] then
        .error .nameError
      else
        match offsetpart with
        | sign :: a :: b :: ':' :: e :: f :: _ =>
          if (sign = '+' ∨ sign = '-') ∧ a.isDigit ∧ b.isDigit ∧
             e.isDigit ∧ f.isDigit then
            let hours := (a.toNat - 48) * 10 + (b.toNat - 48)
            let minutes := (e.toNat - 48) * 10 + (f.toNat - 48)
            let off : Int := (hours * 60 + minutes : Nat)
            let off := if sign = '-' then -off else off
            .ok { dt with tzAware := true, appliedOffsetMinutes := off }
          else .error (.runtimeError ("Unable to parse time string: " ++ s2))
        | _ => .error (.runtimeError ("Unable to parse time string: " ++ s2))
    else .ok dt

/-- `placenames.CODE_STATE.get(state, state)`: place-name expansion is out of
scope (spec section 1 treats it as cosmetic formatting); modelled as the
identity fallback of the dictionary lookup. -/
def CODE_STATE (s : String) : String := s

/-- One `nwsperiod` (lines 108-119): the `(timestamp, period name)` time info
and the forecast text. -/
abbrev NwsPeriod := (PyDateTime × Option String) × String

/-- The fields of an `nwsxml` object (lines 151-158). -/
structure NwsState where
  err : Option String := none
  location : Option String := none
  creationtime : Option PyDateTime := none
  latitude : Option String := none
  longitude : Option String := none
  perioditems : List NwsPeriod := []
deriving DecidableEq, Repr

/-- `nwsxml._parseheader` (lines 176-223), threading the partial field
updates so that a raised exception leaves the already-assigned fields set.
Lines 185-192 (the `dwmlitem is None` branch) are unreachable because `_find`
raises instead of returning `None`. -/
def parseheader (tree : XTree) (st : NwsState) :
    Except (PyErr × NwsState) NwsState :=
  let dwmlRes : Except PyErr XTree :=
    if tree.tag = "dwml" then .ok tree else nwsFindPath tree ["dwml"]
  match dwmlRes with
  | .error e => .error (e, st)
  | .ok dwmlitem =>
    match nwsFindPath dwmlitem ["head", "product"] with
    | .error e => .error (e, st)
    | .ok productitem =>
      match nwsFindPath productitem ["creation-date"] with
      | .error e => .error (e, st)
      | .ok creationitem =>
        match creationitem.text with
        | none => .error (.runtimeError "No forecast creation date/time", st)
        | some creationtime =>
          match parseisotime (pyStrip creationtime) with
          | .error e => .error (e, st)
          | .ok ct =>
            let st := { st with creationtime := some ct }
            match nwsFindPath dwmlitem ["data"] with
            | .error e => .error (e, st)
            | .ok dataitem =>
              if attribGet dataitem "type" ≠ some "forecast" then
                .error (.runtimeError "No forecast data item", st)
              else
                match nwsFindPath dataitem ["location"] with
                | .error e => .error (e, st)
                | .ok locitem =>
                  match nwsFindPath locitem ["point"] with
                  | .error e => .error (e, st)
                  | .ok pointitem =>
                    let st := { st with
                      latitude := attribGet pointitem "latitude",
                      longitude := attribGet pointitem "longitude" }
                    match locitem.findTag "city" with
                    | some cityitem =>
                      match cityitem.text with
                      | none => .error (.runtimeError "No city name", st)
                      | some city =>
                        match (attribGet cityitem "state").map CODE_STATE with
                        | some stt =>
                          .ok { st with location := some (city ++ ", " ++ stt) }
                        | none => .error (.typeError, st)
                    | none =>
                      match nwsFindPath locitem ["area-description"] with
                      | .error e => .error (e, st)
                      | .ok areaitem =>
                        match areaitem.text with
                        | none =>
                          .error (.runtimeError "No area description", st)
                        | some area => .ok { st with location := some area }

/-- `nwsxml._parsetimeitems` (lines 225-242): parse the `start-valid-time`
items of one layout; a missing timestamp raises, an `"NA"` timestamp discards
the whole layout (`none`). -/
def parsetimeitems :
    List XTree → Except PyErr (Option (List (PyDateTime × Option String)))
  | [] => .ok (some [])
  | timeitem :: rest =>
    let periodname := attribGet timeitem "period-name"
    match timeitem.text with
    | none => .error (.runtimeError "No period date/time in time item")
    | some periodtime =>
      if pyStrip periodtime = "NA" then .ok none
      else
        match parseisotime (pyStrip periodtime) with
        | .error e => .error e
        | .ok pt =>
          match parsetimeitems rest with
          | .error e => .error e
          | .ok none => .ok none
          | .ok (some l) => .ok (some ((pt, periodname) :: l))

/-- The loop of `nwsxml._parsetimelayouts` (lines 244-262) over the
`time-layout` elements, building the key-indexed dictionary; empty or
discarded item lists are not stored (the `if timeitemlist :` truthiness
test). -/
def parsetimelayoutsList :
    List XTree → Except PyErr (List (String × List (PyDateTime × Option String)))
  | [] => .ok []
  | tl :: rest =>
    match nwsFindPath tl ["layout-key"] with
    | .error e => .error e
    | .ok keytag =>
      match keytag.text with
      | none => .error (.runtimeError "No time layout key found in time layout")
      | some key =>
        match parsetimeitems (iterTag "start-valid-time" tl) with
        | .error e => .error e
        | .ok til =>
          match parsetimelayoutsList rest with
          | .error e => .error e
          | .ok m =>
            match til with
            | some l => if l.isEmpty then .ok m else .ok ((pyStrip key, l) :: m)
            | none => .ok m

/-- Python dictionary lookup over the association list built document-first:
the latest assignment to a key wins. -/
def dictGet {α : Type} (m : List (String × α)) (key : String) : Option α :=
  m.reverse.lookup key

/-- The text collection loop of `nwsxml._parseforecasts` (lines 277-281):
`forecasttextitem.text.strip()` raises `AttributeError` when the text is
`None`. -/
def collectTexts : List XTree → Except PyErr (List String)
  | [] => .ok []
  | ti :: rest =>
    match ti.text with
    | none => .error .attributeError
    | some s =>
      match collectTexts rest with
      | .error e => .error e
      | .ok l => .ok (pyStrip s :: l)

/-- `nwsxml._parseforecasts` (lines 264-298) over the `wordedForecast`
elements: look up each forecast's time layout, require matching lengths, and
zip timestamps with forecast texts into period items. -/
def parseforecastsList
    (timelayouts : List (String × List (PyDateTime × Option String))) :
    List XTree → Except PyErr (List NwsPeriod)
  | [] => .ok []
  | wf :: rest =>
    match attribGet wf "time-layout" with
    | none => .error (.runtimeError "Forecast time layout key not found in data")
    | some timelayoutkey =>
      match collectTexts (iterTag "text" wf) with
      | .error e => .error e
      | .ok forecasttexts =>
        match dictGet timelayouts (pyStrip timelayoutkey) with
        | none =>
          .error (.runtimeError
            ("Time layout key " ++ pyStrip timelayoutkey ++
             " not found in time layouts"))
        | some timelayout =>
          if timelayout.length ≠ forecasttexts.length then
            .error (.runtimeError
              ("Time layout key " ++ pyStrip timelayoutkey ++
               " has a forecast time count different from the forecast count"))
          else
            match parseforecastsList timelayouts rest with
            | .error e => .error e
            | .ok l => .ok (timelayout.zip forecasttexts ++ l)

/-- Which exceptions the `except` clause of `nwsxml.parse` (line 312)
catches. -/
def caughtByParse : PyErr → Bool
  | .runtimeError _ => true
  | _ => false

/-- The description string of a caught exception (`str(message)`); only
`RuntimeError` carries one in the modelled body. -/
def errString : PyErr → String
  | .runtimeError m => m
  | .valueError => "ValueError"
  | .nameError => "NameError"
  | .attributeError => "AttributeError"
  | .typeError => "TypeError"

/-- The `except` handling of `nwsxml.parse` (lines 312-314): a caught
exception records a description in `self.err` and returns normally; any other
exception escapes the method. -/
def parseCatch (e : PyErr) (st : NwsState) :
    Except (PyErr × NwsState) NwsState :=
  if caughtByParse e then
    .ok { st with
      err := some ("Unable to interpret weather data: " ++ errString e ++ ".") }
  else .error (e, st)

/-- `nwsxml.parse` (lines 302-314): header, time layouts, forecasts; the
result is the updated object, or — when an exception outside the catch list
is raised — that exception together with the partially updated object. -/
def parse (tree : XTree) (st : NwsState) : Except (PyErr × NwsState) NwsState :=
  match parseheader tree st with
  | .error (e, st2) => parseCatch e st2
  | .ok st2 =>
    match parsetimelayoutsList (iterTag "time-layout" tree) with
    | .error e => parseCatch e st2
    | .ok timelayouts =>
      match parseforecastsList timelayouts (iterTag "wordedForecast" tree) with
      | .error e => parseCatch e st2
      | .ok ps => .ok { st2 with perioditems := st2.perioditems ++ ps }

/-- A weather reply whose creation date is a valid ISO timestamp with a
Zulu ("Z") timezone suffix. -/
def zuluTree : XTree :=
  .node "dwml" [] none
    [.node "head" [] none
      [.node "product" [] none
        [.node "creation-date" [] (some "2015-06-01T12:00:00Z") []]]]

/-! ## Theorems -/

/-- C10: after every `write` call returns, the input-direction shift state
equals the output-direction shift state: besides updating the output shift on
LTRS/FIGS code-points, `write` overwrites the input shift state with the
final output shift state (source line 123), so a write can change the shift
interpretation of subsequent reads. -/
theorem write_syncs_inshift (c : BaudotCodec) (s : List Nat) (tty : TTYState) :
    (write c s tty).inshift = (write c s tty).outshift := rfl

/-- C8 counterexample: pressing the delete key synthesizes the code-point
`BLANKKEY = 0x00`, which is not the all-bits-set code-point `0x1f` of a 5-bit
code; the claim that the all-bits-set code-point is appended is false. -/
theorem backspace_not_allbits_cex :
    read WC [DEL] none = some ([BLANKKEY], none) ∧ BLANKKEY ≠ 0x1f := by
  exact ⟨rfl, by decide⟩

/-- C8 (amended): for every read in which the operator presses the
delete/backspace key (backspace or 0x7f), the synthesized code-point appended
to the returned sequence is the blank (all-bits-zero) code-point `BLANKKEY =
0x00`, and no shift code-point is emitted for it (and, the result being a
single code-point, no CR is appended either); the input shift state is left
unchanged. -/
theorem backspace_blankkey (c : BaudotCodec) (st : Option Nat) (ch : Char)
    (h : ch = BS ∨ ch = DEL) :
    read c [ch] st = some ([BLANKKEY], st) := by
  rcases h with rfl | rfl <;> rfl

/-- C8 witness: the amended theorem at the concrete delete keystroke. -/
theorem backspace_blankkey_witness :
    (DEL = BS ∨ DEL = DEL) ∧ read WC [DEL] none = some ([BLANKKEY], none) :=
  ⟨Or.inr rfl, backspace_blankkey WC none DEL (Or.inr rfl)⟩

/-- C9: the sequence returned by one `read` call is the assembled sequence
with a line-end (CR) code-point appended exactly when the assembled sequence
is not one code-point long: a keystroke reducing to a single output
code-point is returned un-terminated, any other result (empty or
multi-code-point) gets a trailing CR. -/
theorem read_cr_termination (c : BaudotCodec) (input : List Char)
    (st : Option Nat) (a : List Nat) (st2 : Option Nat)
    (h : readLoop c input st = some (a, st2)) :
    (a.length = 1 → read c input st = some (a, st2)) ∧
    (a.length ≠ 1 → read c input st = some (a ++ [c.CR], st2)) := by
  refine ⟨fun h1 => ?_, fun h1 => ?_⟩ <;> simp [read, h, h1]

/-- C9 witness: a two-key input assembles four code-points and is returned
with a trailing CR. -/
theorem read_cr_termination_witness :
    readLoop WC ['A', '1'] none = some ([31, 3, 27, 3], some 27) ∧
    (([31, 3, 27, 3] : List Nat).length = 1 →
      read WC ['A', '1'] none = some ([31, 3, 27, 3], some 27)) ∧
    (([31, 3, 27, 3] : List Nat).length ≠ 1 →
      read WC ['A', '1'] none = some ([31, 3, 27, 3, 8], some 27)) :=
  ⟨rfl, read_cr_termination WC ['A', '1'] none [31, 3, 27, 3] (some 27) rfl⟩

/-- C5: `markitemsdone` notifies the source for pending items in FIFO order
(the items sent are the longest prefix of the queue on which the network
succeeds), stops at the first transient network failure leaving the failed
item and all unsent items queued for the next cycle (the failed item is put
back at the tail), and returns true if and only if the pending queue was
fully drained (equivalently, every pending notification succeeded). -/
theorem markitemsdone_spec (net : FeedItem → Bool) (q : List FeedItem) :
    (markitemsdone net q).sent = q.takeWhile net ∧
    ((markitemsdone net q).drained = true ↔ (markitemsdone net q).queue = []) ∧
    ((markitemsdone net q).drained = true ↔ ∀ i ∈ q, net i = true) ∧
    ((markitemsdone net q).drained = false →
      ∃ f unsent, q.dropWhile net = f :: unsent ∧ net f = false ∧
        (markitemsdone net q).queue = unsent ++ [f]) := by
  induction q with
  | nil => simp [markitemsdone]
  | cons hd t ih =>
    obtain ⟨ih1, ih2, ih3, ih4⟩ := ih
    by_cases hnet : net hd
    · have hm : markitemsdone net (hd :: t) =
          ⟨(markitemsdone net t).drained, (markitemsdone net t).queue,
           hd :: (markitemsdone net t).sent⟩ := by
        simp [markitemsdone, hnet]
      refine ⟨?_, ?_, ?_, ?_⟩
      · simp [hm, List.takeWhile_cons, hnet, ih1]
      · simpa [hm] using ih2
      · rw [hm]
        show (markitemsdone net t).drained = true ↔ _
        rw [ih3]
        constructor
        · intro hall i hi
          rcases List.mem_cons.mp hi with rfl | hi
          · exact hnet
          · exact hall i hi
        · intro hall i hi
          exact hall i (List.mem_cons_of_mem _ hi)
      · intro hfail
        rw [hm] at hfail
        obtain ⟨f, unsent, hdw, hnf, hq⟩ := ih4 hfail
        refine ⟨f, unsent, ?_, hnf, ?_⟩
        · simpa [List.dropWhile_cons, hnet] using hdw
        · simpa [hm] using hq
    · have hm : markitemsdone net (hd :: t) = ⟨false, t ++ [hd], []⟩ := by
        simp [markitemsdone, hnet]
      refine ⟨?_, ?_, ?_, ?_⟩
      · simp [hm, List.takeWhile_cons, hnet]
      · simp [hm]
      · rw [hm]
        show false = true ↔ _
        simp only [Bool.false_eq_true, false_iff]
        intro hall
        exact absurd (hall hd (List.mem_cons_self _ _)) (by simpa using hnet)
      · intro _
        refine ⟨hd, t, ?_, by simpa using hnet, ?_⟩
        · simp [List.dropWhile_cons, hnet]
        · simp [hm]

/-- C5 witness: the characterization at a concrete oracle (failure exactly at
serial 5) and a concrete three-item queue. -/
theorem markitemsdone_spec_witness :
    (markitemsdone net5 dq5).sent = dq5.takeWhile net5 ∧
    ((markitemsdone net5 dq5).drained = true ↔
      (markitemsdone net5 dq5).queue = []) ∧
    ((markitemsdone net5 dq5).drained = true ↔ ∀ i ∈ dq5, net5 i = true) ∧
    ((markitemsdone net5 dq5).drained = false →
      ∃ f unsent, dq5.dropWhile net5 = f :: unsent ∧ net5 f = false ∧
        (markitemsdone net5 dq5).queue = unsent ++ [f]) :=
  markitemsdone_spec net5 dq5

/-- Every command the polling loop sends is a `getnext` (helper). -/
theorem fetchLoop_cmds_getnext (replies : List (List MsgEntry)) (ls : Int) :
    ∀ cmd ∈ (fetchLoop replies ls).2, ∃ n, cmd = SrvCmd.getnext n := by
  induction replies generalizing ls with
  | nil =>
    intro cmd hc
    simp only [fetchLoop, List.mem_singleton] at hc
    exact ⟨ls + 1, hc⟩
  | cons r rest ih =>
    intro cmd hc
    simp only [fetchLoop] at hc
    split at hc
    · rcases List.mem_cons.mp hc with rfl | h
      · exact ⟨ls + 1, rfl⟩
      · exact ih _ _ h
    · simp only [List.mem_singleton] at hc
      exact ⟨ls + 1, hc⟩

/-- The polling loop always opens with `getnext (lastserial + 1)` (helper). -/
theorem fetchLoop_first_cmd (replies : List (List MsgEntry)) (ls : Int) :
    ∃ tail, (fetchLoop replies ls).2 = SrvCmd.getnext (ls + 1) :: tail := by
  cases replies with
  | nil => exact ⟨[], rfl⟩
  | cons r rest =>
    simp only [fetchLoop]
    split
    · exact ⟨(fetchLoop rest (handlereply r)).2, rfl⟩
    · exact ⟨[], rfl⟩

/-- C3 counterexample: a malformed reply that contains a well-formed message
(serial 5) before the malformed element takes the FormatError path, yet the
cycle advances the cursor from 3 to 5 (and keeps polling), so "for every
reply whose parse fails, the cursor is not advanced" is false as stated. -/
theorem format_error_cursor_advances_cex :
    handlereply [MsgEntry.good 5, MsgEntry.bad] = 5 ∧
    fetchLoop [[MsgEntry.good 5, MsgEntry.bad]] 3 =
      (5, [SrvCmd.getnext 4, SrvCmd.getnext 6]) ∧ (5 : Int) ≠ 3 := by
  exact ⟨rfl, rfl, by decide⟩

/-- C3 (amended): for every reply whose parse fails before any message's
serial number is extracted — in particular every malformed reply with at most
one message element, the shape the server is documented to return —
`handlereply` returns -1 and the cursor is not advanced: for any reachable
cursor (`lastserial ≥ -1`), the cycle step leaves `lastserial` unchanged and
stops, and the request it sent used `lastserial + 1`, so the next cycle
retries from the same cursor. -/
theorem bad_reply_cursor_unchanged (t : List MsgEntry)
    (rest : List (List MsgEntry)) (ls : Int) (h : -1 ≤ ls) :
    handlereply (MsgEntry.bad :: t) = -1 ∧
    fetchLoop ((MsgEntry.bad :: t) :: rest) ls =
      (ls, [SrvCmd.getnext (ls + 1)]) := by
  have hns : handlereply (MsgEntry.bad :: t) = -1 := rfl
  refine ⟨hns, ?_⟩
  have hcond : ¬(handlereply (MsgEntry.bad :: t) ≠ 0 ∧
      handlereply (MsgEntry.bad :: t) > ls) := by
    rw [hns]
    rintro ⟨-, hgt⟩
    omega
  simp only [fetchLoop, if_neg hcond]

/-- C3 witness: the amended theorem at a single-element malformed reply and
cursor 3. -/
theorem bad_reply_cursor_unchanged_witness :
    (-1 : Int) ≤ 3 ∧ handlereply [MsgEntry.bad] = -1 ∧
    fetchLoop [[MsgEntry.bad]] 3 = (3, [SrvCmd.getnext 4]) :=
  ⟨by decide, bad_reply_cursor_unchanged [] [] 3 (by decide)⟩

/-- C4 counterexample: with one item pending acknowledgement and the network
failing, the drain reports incomplete and the cycle sends no command at all —
in particular no `getnext` — even though a reply with a new message was
available: the cycle does NOT proceed to fetch when draining is incomplete,
so that half of the claim is false as stated. -/
theorem incomplete_drain_skips_fetch_cex :
    (markitemsdone (fun _ => false) [⟨5⟩]).drained = false ∧
    fetchitems (fun _ => false) false [[MsgEntry.good 1]] ⟨0, [⟨5⟩]⟩ =
      (⟨0, [⟨5⟩]⟩, []) := by
  exact ⟨rfl, rfl⟩

/-- C4 (amended): in every poll cycle, acknowledgement draining is attempted
before fetching — in the transcript of sent commands all acknowledgements
precede all fetch requests — but when draining reports incomplete (returns
false) the cycle returns without fetching: no `getnext` is sent, and the
fetch is retried on a later cycle. -/
theorem drain_before_fetch (net : FeedItem → Bool) (idle : Bool)
    (replies : List (List MsgEntry)) (st : FeedState) :
    (∃ acks gets, (fetchitems net idle replies st).2 = acks ++ gets ∧
      (∀ cmd ∈ acks, ∃ n, cmd = SrvCmd.printed n) ∧
      (∀ cmd ∈ gets, ∃ n, cmd = SrvCmd.getnext n)) ∧
    ((markitemsdone net st.donequeue).drained = false →
      ∀ n, SrvCmd.getnext n ∉ (fetchitems net idle replies st).2) := by
  by_cases hd : (markitemsdone net st.donequeue).drained = false
  · have hm : (fetchitems net idle replies st).2 =
        (markitemsdone net st.donequeue).sent.map
          (fun i => SrvCmd.printed i.serial) := by
      simp [fetchitems, hd]
    constructor
    · refine ⟨_, [], by rw [hm, List.append_nil], ?_, by simp⟩
      intro cmd hc
      obtain ⟨i, -, rfl⟩ := List.mem_map.mp hc
      exact ⟨i.serial, rfl⟩
    · intro _ n hc
      rw [hm] at hc
      obtain ⟨i, -, hbad⟩ := List.mem_map.mp hc
      exact SrvCmd.noConfusion hbad
  · have hm : (fetchitems net idle replies st).2 =
        (markitemsdone net st.donequeue).sent.map
          (fun i => SrvCmd.printed i.serial) ++
        (fetchLoop replies
          (if idle then -1 else st.lastserial)).2 := by
      simp [fetchitems, hd]
    constructor
    · refine ⟨_, _, hm, ?_, ?_⟩
      · intro cmd hc
        obtain ⟨i, -, rfl⟩ := List.mem_map.mp hc
        exact ⟨i.serial, rfl⟩
      · exact fetchLoop_cmds_getnext _ _
    · intro hfalse
      exact absurd hfalse hd

/-- C4 witness: the amended theorem at a concrete cycle (drains serial 1,
fails on serial 5, no fetch command follows). -/
theorem drain_before_fetch_witness :
    (∃ acks gets,
      (fetchitems net5 false [[MsgEntry.good 9]] ⟨3, dq5⟩).2 = acks ++ gets ∧
      (∀ cmd ∈ acks, ∃ n, cmd = SrvCmd.printed n) ∧
      (∀ cmd ∈ gets, ∃ n, cmd = SrvCmd.getnext n)) ∧
    ((markitemsdone net5 (FeedState.donequeue ⟨3, dq5⟩)).drained = false →
      ∀ n, SrvCmd.getnext n ∉
        (fetchitems net5 false [[MsgEntry.good 9]] ⟨3, dq5⟩).2) :=
  drain_before_fetch net5 false [[MsgEntry.good 9]] ⟨3, dq5⟩

/-- C6: whenever the feed reports idle at the start of a poll cycle (and the
acknowledgement drain completes, so that the cycle reaches its fetch phase),
the cursor is reset to -1 and the first fetch request of the cycle is
`getnext 0` — it asks for items after serial 0, i.e. from the beginning of
the item history. -/
theorem idle_resets_cursor (net : FeedItem → Bool)
    (replies : List (List MsgEntry)) (st : FeedState)
    (h : (markitemsdone net st.donequeue).drained = true) :
    ∃ tail, (fetchitems net true replies st).2 =
      (markitemsdone net st.donequeue).sent.map
        (fun i => SrvCmd.printed i.serial) ++ (SrvCmd.getnext 0 :: tail) := by
  obtain ⟨tail, htail⟩ := fetchLoop_first_cmd replies (-1)
  refine ⟨tail, ?_⟩
  have : (-1 : Int) + 1 = 0 := by decide
  simp [fetchitems, h, htail, this]

/-- C6 witness: an idle cycle with an empty done queue opens its fetch with
`getnext 0`. -/
theorem idle_resets_cursor_witness :
    (markitemsdone net5 (FeedState.donequeue ⟨7, []⟩)).drained = true ∧
    ∃ tail, (fetchitems net5 true [] ⟨7, []⟩).2 =
      (markitemsdone net5 (FeedState.donequeue ⟨7, []⟩)).sent.map
        (fun i => SrvCmd.printed i.serial) ++ (SrvCmd.getnext 0 :: tail) :=
  ⟨rfl, idle_resets_cursor net5 [] ⟨7, []⟩ rfl⟩

/-- Unfolding of one `read` loop iteration for a plain ASCII character that
is neither control-C nor newline (helper). -/
theorem readLoop_cons_plain (c : BaudotCodec) (ch : Char) (rest : List Char)
    (st : Option Nat) (h1 : ch.toNat < 128) (h2 : ch ≠ CTLC) (h3 : ch ≠ '\n') :
    readLoop c (ch :: rest) st =
      match readLoop c rest (readStep c st ch).2 with
      | none => none
      | some (tl, stf) => some ((readStep c st ch).1 ++ tl, stf) := by
  have e1 : (if ch.toNat ≥ 128 then '?' else ch) = ch := if_neg (by omega)
  simp only [readLoop, e1, if_neg h2, if_neg h3]

/-- Evaluation of the per-character emission when the key maps through the
codec (helper): the pair `(emitted code-points, new input shift)`. -/
theorem readStep_eval (c : BaudotCodec) (ch : Char) (st : Option Nat)
    (bb : Nat) (sho : Option Nat) (h4 : ch ≠ ESC) (h5 : ch ≠ BS)
    (h6 : ch ≠ DEL) (htb : c.toBaudot ch = (some bb, sho)) :
    (∀ sh, sho = some sh →
      readStep c st ch =
        (if some sh ≠ st then ([sh, bb], some sh) else ([bb], st))) ∧
    (sho = none → readStep c st ch = ([bb], st)) := by
  have hkey : readKey c ch = (some bb, sho) := by
    rw [readKey, if_neg h4, if_neg (by rintro (h | h) <;> [exact h5 h; exact h6 h]),
      htb]
  constructor
  · rintro sh rfl
    by_cases hne : (some sh : Option Nat) ≠ st <;> simp [readStep, hkey, hne]
  · rintro rfl
    simp [readStep, hkey]

/-- C2: in the code-point sequence produced by one read call, a shift
code-point is emitted immediately before a character's code-point if and only
if that character's required shift case is defined and differs from the
current input shift state: when it does, the emission for the character is
`[shift, code]` and the input shift becomes that shift; when the required
case is undefined or equals the current state, the emission is `[code]` alone
and the state is unchanged.  Consequently input text alternating case every
character yields exactly one shift code-point per case transition, never one
per character. -/
theorem read_shift_insertion (c : BaudotCodec) (ch : Char) (rest : List Char)
    (st : Option Nat) (bb : Nat) (sho : Option Nat)
    (h1 : ch.toNat < 128) (h2 : ch ≠ CTLC) (h3 : ch ≠ '\n') (h4 : ch ≠ ESC)
    (h5 : ch ≠ BS) (h6 : ch ≠ DEL)
    (htb : c.toBaudot ch = (some bb, sho)) :
    (∀ sh, sho = some sh → some sh ≠ st →
      readLoop c (ch :: rest) st =
        (readLoop c rest (some sh)).map (fun p => (sh :: bb :: p.1, p.2))) ∧
    ((sho = none ∨ sho = st) →
      readLoop c (ch :: rest) st =
        (readLoop c rest st).map (fun p => (bb :: p.1, p.2))) := by
  have hcons := readLoop_cons_plain c ch rest st h1 h2 h3
  obtain ⟨hsome, hnone⟩ := readStep_eval c ch st bb sho h4 h5 h6 htb
  constructor
  · rintro sh rfl hne
    have hstep := hsome sh rfl
    rw [if_pos hne] at hstep
    rw [hcons, hstep]
    cases readLoop c rest (some sh) with
    | none => rfl
    | some p => cases p; rfl
  · intro hcase
    have hstep2 : readStep c st ch = ([bb], st) := by
      rcases hcase with rfl | rfl
      · exact hnone rfl
      · cases sho with
        | none => exact hnone rfl
        | some sh =>
          have hstep := hsome sh rfl
          rwa [if_neg (by simp)] at hstep
    rw [hcons, hstep2]
    cases readLoop c rest st with
    | none => rfl
    | some p => cases p; rfl

/-- C2 witness: typing a letters-case character while the input shift is
unknown emits the LTRS shift code-point immediately before the character
code-point. -/
theorem read_shift_insertion_witness :
    (∀ sh, (some 31 : Option Nat) = some sh → some sh ≠ (none : Option Nat) →
      readLoop WC ('A' :: ['1']) none =
        (readLoop WC ['1'] (some sh)).map (fun p => (sh :: 3 :: p.1, p.2))) ∧
    (((some 31 : Option Nat) = none ∨ (some 31 : Option Nat) = none) →
      readLoop WC ('A' :: ['1']) none =
        (readLoop WC ['1'] none).map (fun p => (3 :: p.1, p.2))) :=
  read_shift_insertion WC 'A' ['1'] none 3 (some 31) (by decide) (by decide)
    (by decide) (by decide) (by decide) (by decide) rfl

/-- Core round-trip invariant (helper): encoding a text of round-trippable
characters with the read path's per-character conversion, starting from input
shift `st`, succeeds; and decoding the resulting stream with the write path's
byte loop, starting from a machine whose output shift equals `st`, appends
exactly the original text to the output line, flushes nothing, and leaves the
output shift equal to the encoder's final input shift. -/
theorem roundtrip_run (c : BaudotCodec) (text : List Char) :
    ∀ (st : Option Nat) (tty : TTYState),
      (∀ ch ∈ text, roundtrippable c ch) → tty.outshift = st →
      ∃ stream st2, readLoop c text st = some (stream, st2) ∧
        writeRun c stream tty =
          { tty with outline := tty.outline ++ text, outshift := st2 } := by
  induction text with
  | nil =>
    intro st tty _ hsync
    refine ⟨[], st, rfl, ?_⟩
    rw [← hsync]
    cases tty
    simp [writeRun]
  | cons ch rest ih =>
    intro st tty h hsync
    obtain ⟨hlt, hc, he, hb, hd, hn, hr, bb, sho, htb, hbf, hbl, hcase⟩ :=
      h ch (List.mem_cons_self _ _)
    have hrest : ∀ x ∈ rest, roundtrippable c x :=
      fun x hx => h x (List.mem_cons_of_mem _ hx)
    have hcons := readLoop_cons_plain c ch rest st hlt hc hn
    obtain ⟨hsome, hnone⟩ := readStep_eval c ch st bb sho he hb hd htb
    have hnotnl : ¬(ch = '\n' ∨ ch = '\r') := by
      rintro (h9 | h9) <;> [exact hn h9; exact hr h9]
    rcases hcase with ⟨sh, rfl, hshv, hdec⟩ | ⟨rfl, hdec⟩
    · by_cases hne : (some sh : Option Nat) ≠ st
      · have hstep : readStep c st ch = ([sh, bb], some sh) := by
          rw [hsome sh rfl, if_pos hne]
        obtain ⟨tl, stf, hrl, hwr⟩ := ih (some sh)
          { tty with outline := tty.outline ++ [ch], outshift := some sh }
          hrest rfl
        refine ⟨sh :: bb :: tl, stf, ?_, ?_⟩
        · rw [hcons, hstep, hrl]; rfl
        · have hw1 : writeByte c tty sh = { tty with outshift := some sh } := by
            rcases hshv with hsf | hsl
            · simp [writeByte, hsf]
            · by_cases hf : sh = c.FIGS
              · simp [writeByte, hf]
              · simp [writeByte, hf, hsl]
          have hw2 : writeByte c { tty with outshift := some sh } bb = { tty with outline := tty.outline ++ [ch], outshift := some sh } := by
            simp only [writeByte, if_neg hbf, if_neg hbl, hdec, if_neg hnotnl]
          have hrun : writeRun c (sh :: bb :: tl) tty = writeRun c tl { tty with outline := tty.outline ++ [ch], outshift := some sh } := by
            show writeRun c tl (writeByte c (writeByte c tty sh) bb) = _
            rw [hw1, hw2]
          rw [hrun, hwr]
          simp
      · have hstep2 : readStep c st ch = ([bb], st) := by
          rw [hsome sh rfl, if_neg hne]
        have hst : some sh = st := not_ne_iff.mp hne
        have hdec2 : c.toASCII bb tty.outshift = some ch := by
          rw [hsync, ← hst]; exact hdec
        obtain ⟨tl, stf, hrl, hwr⟩ := ih st
          { tty with outline := tty.outline ++ [ch] } hrest hsync
        refine ⟨bb :: tl, stf, ?_, ?_⟩
        · rw [hcons, hstep2, hrl]; rfl
        · have hw : writeByte c tty bb = { tty with outline := tty.outline ++ [ch] } := by
            simp only [writeByte, if_neg hbf, if_neg hbl, hdec2, if_neg hnotnl]
          have hrun : writeRun c (bb :: tl) tty = writeRun c tl { tty with outline := tty.outline ++ [ch] } := by
            show writeRun c tl (writeByte c tty bb) = _
            rw [hw]
          rw [hrun, hwr]
          simp
    · have hstep2 : readStep c st ch = ([bb], st) := hnone rfl
      have hdec2 : c.toASCII bb tty.outshift = some ch := hdec tty.outshift
      obtain ⟨tl, stf, hrl, hwr⟩ := ih st
        { tty with outline := tty.outline ++ [ch] } hrest hsync
      refine ⟨bb :: tl, stf, ?_, ?_⟩
      · rw [hcons, hstep2, hrl]; rfl
      · have hw : writeByte c tty bb = { tty with outline := tty.outline ++ [ch] } := by
          simp only [writeByte, if_neg hbf, if_neg hbl, hdec2, if_neg hnotnl]
        have hrun : writeRun c (bb :: tl) tty = writeRun c tl { tty with outline := tty.outline ++ [ch] } := by
          show writeRun c tl (writeByte c tty bb) = _
          rw [hw]
        rw [hrun, hwr]
        simp

/-- C1 (round-trip law): for every text of round-trippable characters,
encoding it to a Baudot code-point stream with the input path's per-character
conversion with shift insertion (`readLoop`) and then decoding that stream
with the output path's shift-replaying decoder (`write`, starting with an
output shift equal to the encoder's input shift) reproduces the original text
exactly on the output line, with nothing flushed past it. -/
theorem read_write_roundtrip (c : BaudotCodec) (text : List Char)
    (st : Option Nat) (tty : TTYState)
    (h : ∀ ch ∈ text, roundtrippable c ch) (hsync : tty.outshift = st) :
    ∃ stream st2, readLoop c text st = some (stream, st2) ∧
      (write c stream tty).outline = tty.outline ++ text ∧
      (write c stream tty).printed = tty.printed := by
  obtain ⟨stream, st2, hrl, hwr⟩ := roundtrip_run c text st tty h hsync
  refine ⟨stream, st2, hrl, ?_, ?_⟩ <;> simp [write, hwr]

/-- C1 witness: round trip of the concrete text "A1 A" through the concrete
codec, starting from unknown shift states on a fresh machine. -/
theorem read_write_roundtrip_witness :
    ∃ stream st2,
      readLoop WC ['A', '1', ' ', 'A'] none = some (stream, st2) ∧
      (write WC stream ⟨none, none, [], []⟩).outline = ['A', '1', ' ', 'A'] ∧
      (write WC stream ⟨none, none, [], []⟩).printed = [] :=
  read_write_roundtrip WC ['A', '1', ' ', 'A'] none ⟨none, none, [], []⟩
    (by
      intro ch hch
      simp only [List.mem_cons, List.not_mem_nil, or_false] at hch
      rcases hch with rfl | rfl | rfl | rfl
      · exact ⟨by decide, by decide, by decide, by decide, by decide, by decide,
          by decide, 3, some 31, rfl, by decide, by decide,
          Or.inl ⟨31, rfl, Or.inr rfl, rfl⟩⟩
      · exact ⟨by decide, by decide, by decide, by decide, by decide, by decide,
          by decide, 3, some 27, rfl, by decide, by decide,
          Or.inl ⟨27, rfl, Or.inl rfl, rfl⟩⟩
      · exact ⟨by decide, by decide, by decide, by decide, by decide, by decide,
          by decide, 4, none, rfl, by decide, by decide,
          Or.inr ⟨rfl, fun _ => rfl⟩⟩
      · exact ⟨by decide, by decide, by decide, by decide, by decide, by decide,
          by decide, 3, some 31, rfl, by decide, by decide,
          Or.inl ⟨31, rfl, Or.inr rfl, rfl⟩⟩)
    rfl

/-- C7: `nwsxml.parse` does NOT return normally on every input tree.  On a
well-formed weather reply whose creation date carries a Zulu ("Z") timezone
suffix, `parseisotime` executes `offset == 0` — a comparison on the local
`offset` that has never been assigned (the source meant `offset = 0`) — which
raises `NameError`; `NameError` is not in the `except` list of `parse`
(`EnvironmentError`, `RuntimeError`, `ParseError`), so the exception escapes
`parse` instead of being recorded in `self.err`.  (An unparsable datetime
part similarly escapes as `ValueError` from `datetime.strptime`.) -/
theorem parse_zulu_nameerror :
    parse zuluTree {} = .error (.nameError, {}) ∧
    parseisotime "2015-06-01T12:00:00Z" = .error .nameError ∧
    parseisotime "not a timestamp" = .error .valueError := by
  exact ⟨rfl, rfl, rfl⟩

end Baudotrss
